import Mathlib

/-!
# Verification of the pipef pipeline-engine repository

The repository consists of example applications (a keyboard CLI, an HTTP
responder, a video transcoder) built against a small dataflow engine
`pipef::engine`.  The engine core itself is not present in the source tree:
the example files declare explicit mock stand-ins for it ("Mock classes for
demonstration", `#include "pipef.h"  // Hypothetical pipeline framework`) whose
`run` is an empty or print-only stub.

This development therefore contains two layers:

* a direct shallow embedding of the mock classes that *are* in the tree
  (`src/unnamed/part_001`, `src/example/key_input.cpp`): the stub
  `engine::run`, `engine::create<T>`, `character_filter`, `command_map`, and
  the `Application` main loop built on them;
* a model of the engine core, *modelled from the spec* (tick/propagation
  semantics, scheduler loop, run-control state machine, link type checking),
  since that code is absent from the repository.
-/

/-! ## Part 1 — direct embedding of the mock framework in `src/unnamed/part_001`

The C++ classes embedded here (quoted from `src/unnamed/part_001`):

```cpp
class engine {
 public:
  static std::unique_ptr<engine> create() { return std::make_unique<engine>(); }
  template <typename T>
  std::unique_ptr<T> create() { return std::make_unique<T>(); }
  void run(int loop_count, int duration_ms) {
    // Simulates engine work for the given duration.
  }
};
class character_filter {
  character_filter& operator[](const std::string&) { return *this; }
  template <typename Func> character_filter& operator|(Func&& f) { return *this; }
};
class command_map {
  command_map& operator[](const std::string&) { return *this; }
  command_map& set(std::function<void(const std::string&)>) { return *this; }
};
```

None of these classes has a data member, so each is embedded as a fieldless
structure; an effect trace (`Effect`) instruments each member function with
the observable actions its body performs — for the stubs above, none.
-/

namespace Part001

/-- Observable actions a framework call could perform.  `run`'s body in
`part_001` is empty, so the embedded functions emit the effects their C++
bodies actually contain (none, except the diagnostic print in the
`key_input.cpp` variant, recorded as `logged`). -/
inductive Effect where
  | polled (source : String)
  | delivered (item : String)
  | invoked (key : String) (arg : String)
  | logged (msg : String)
deriving DecidableEq, Repr

/-- Observable program state threaded through the embedded calls: the
pending input of the (mock) sources, what sinks have received, the log of
handler invocations, and `Application::should_quit_`
(`src/unnamed/part_001`, member `std::atomic<bool> should_quit_{false}`). -/
structure ProgState where
  pendingInput : List String
  sinkReceived : List String
  handlersInvoked : List (String × String)
  shouldQuit : Bool
deriving DecidableEq, Repr

/-- `pipef::engine::engine` (`src/unnamed/part_001` lines 10–22): a class
with no data members. -/
structure engine where
deriving DecidableEq, Repr

/-- `static std::unique_ptr<engine> create() { return std::make_unique<engine>(); }`:
always yields a fresh engine (`none` would model a null pointer). -/
def engine.createEngine : Option engine := some ⟨⟩

/-- `template <typename T> std::unique_ptr<T> create() { return std::make_unique<T>(); }`
(`src/unnamed/part_001` lines 14–17): default-constructs a fresh `T` and hands
it to the caller; the engine object (which has no members) is untouched. -/
def engine.create (T : Type) [Inhabited T] (e : engine) : engine × Option T :=
  (e, some default)

/-- `void run(int loop_count, int duration_ms) { /* Simulates engine work */ }`
(`src/unnamed/part_001` lines 19–21): the body is empty, so the call leaves
the whole program state unchanged and performs no observable action. -/
def engine.run (_loop_count _duration_ms : Int) (s : ProgState) :
    ProgState × List Effect :=
  (s, [])

/-- The `engine::run` variant of `src/example/key_input.cpp` lines 17–19:
`std::cout << "[Engine] Running loop for " << duration_ms << "ms...\n";` —
it prints one diagnostic line and does nothing else. -/
def engine.runKeyInput (_loop_count duration_ms : Int) (s : ProgState) :
    ProgState × List Effect :=
  (s, [Effect.logged ("[Engine] Running loop for " ++ toString duration_ms ++ "ms...")])

/-- One iteration of `Application::main_loop` (`src/unnamed/part_001`
lines 130–136): `while (!should_quit_) engine_->run(1, kStepDurationMs);`
with `kStepDurationMs = 100`. -/
def Application.loopIter (s : ProgState) : ProgState × List Effect :=
  if s.shouldQuit then (s, []) else engine.run 1 100 s

/-- `k` iterations of the `Application::main_loop` body, with the effect
traces concatenated in order. -/
def Application.loopIters : Nat → ProgState → ProgState × List Effect
  | 0, s => (s, [])
  | Nat.succ k, s =>
      let (s₁, t₁) := Application.loopIter s
      let (s₂, t₂) := Application.loopIters k s₁
      (s₂, t₁ ++ t₂)

/-- `class key_input_src {};` — no members. -/
structure key_input_src where
deriving DecidableEq, Repr, Inhabited

/-- `class print_sink` — its only member `operator[](std::ostream&)` has an
empty body and no state. -/
structure print_sink where
deriving DecidableEq, Repr, Inhabited

/-- `character_filter` (`src/unnamed/part_001` lines 27–34): no data members;
both member functions return `*this`. -/
structure character_filter where
deriving DecidableEq, Repr, Inhabited

/-- `character_filter& operator[](const std::string&) { return *this; }`:
ignores the tag, returns the same object, no observable action. -/
def character_filter.opIndex (f : character_filter) (_tag : String) :
    character_filter × List Effect :=
  (f, [])

/-- `template <typename Func> character_filter& operator|(Func&& f) { return *this; }`:
discards the function, returns the same object, no observable action. -/
def character_filter.opPipe (f : character_filter) (_func : String → List Effect) :
    character_filter × List Effect :=
  (f, [])

/-- A registered command handler, as in
`std::function<void(const std::string&)>`: its observable behaviour is the
effects it would perform on its string argument. -/
def Handler : Type := String → List Effect

/-- `command_map` (`src/unnamed/part_001` lines 35–39): no data members. -/
structure command_map where
deriving DecidableEq, Repr, Inhabited

/-- `command_map& operator[](const std::string&) { return *this; }`. -/
def command_map.opIndex (m : command_map) (_key : String) :
    command_map × List Effect :=
  (m, [])

/-- `command_map& set(std::function<void(const std::string&)>) { return *this; }`:
the handler argument is not stored anywhere (the class has no members) and
not called (the body is just `return *this`). -/
def command_map.set (m : command_map) (_handler : Handler) :
    command_map × List Effect :=
  (m, [])

/-- The operations a caller can perform on a `command_map` object, as used by
`Application::setup_pipeline` (`(*commands)[key].set(handler)`). -/
inductive CmdOp where
  | index (key : String)
  | set (handler : Handler)

/-- Applying a sequence of `command_map` operations, accumulating the
observable effect trace. -/
def command_map.applyOps : command_map → List CmdOp → command_map × List Effect
  | m, [] => (m, [])
  | m, CmdOp.index k :: ops =>
      let (m₁, t₁) := m.opIndex k
      let (m₂, t₂) := command_map.applyOps m₁ ops
      (m₂, t₁ ++ t₂)
  | m, CmdOp.set h :: ops =>
      let (m₁, t₁) := m.set h
      let (m₂, t₂) := command_map.applyOps m₁ ops
      (m₂, t₁ ++ t₂)

end Part001

/-! ## Part 2 — the engine core, modelled from the spec

The pipef engine itself is absent from the repository: the examples include a
hypothetical `pipef.h` and declare mock stand-ins.  The definitions in this
namespace are therefore modelled from the spec (§2–§4): an engine owns a
graph of nodes (source / filter / transformer / sink) connected by links; on
each tick it polls every source in creation order and propagates each
produced item depth-first along the outgoing links, applying filter and
transformer semantics, until the item reaches sinks or is dropped. -/

namespace SpecModel

/-- Modelled from the spec: a node's capability (§3 "a capability tag from
the set {Source, Filter, Transformer, Router, Sink}").  A filter carries its
configured match set; a transformer its mapping function.  Routers are
omitted: no claim under this model mentions them. -/
inductive NodeB (α : Type) where
  | src
  | filt (matchSet : List α)
  | tmap (f : α → α)
  | snk

/-- Modelled from the spec: the pipeline graph (§3): nodes in creation order
(a node's identity is its index) and directed default-tagged links. -/
structure PGraph (α : Type) where
  nodes : List (NodeB α)
  links : List (Nat × Nat)

/-- The consumers wired to node `nid`'s default output, in link-registration
order (§4.2: a fan-in consumer processes arriving items in link-registration
order). -/
def consumersOf {α : Type} (g : PGraph α) (nid : Nat) : List Nat :=
  (g.links.filter (fun l => l.1 == nid)).map (·.2)

/-- Modelled from the spec (§4.3): depth-first propagation of one item
arriving at node `nid`: a sink consumes it; a filter forwards it unchanged
to its consumers exactly when it belongs to the match set, and drops it
otherwise (§4.1); a transformer applies its function and forwards; an item
arriving at a source is undefined by the spec and delivered nowhere.  The
returned list is the sequence of (sink, item) deliveries in order.  `fuel`
bounds the path length; the graph is acyclic by convention (§3), so
`g.nodes.length` is always enough. -/
def propagate {α : Type} [DecidableEq α] (g : PGraph α) :
    Nat → Nat → α → List (Nat × α)
  | 0, _, _ => []
  | Nat.succ fuel, nid, x =>
    match g.nodes[nid]? with
    | some NodeB.snk => [(nid, x)]
    | some (NodeB.filt S) =>
        if x ∈ S then (consumersOf g nid).flatMap (fun c => propagate g fuel c x)
        else []
    | some (NodeB.tmap f) =>
        (consumersOf g nid).flatMap (fun c => propagate g fuel c (f x))
    | some NodeB.src => []
    | none => []

/-- One tick's walk over the node ids in creation order (§4.3: "for each
Source node (in creation order), call poll()").  `st` holds each source's
remaining input stream, indexed by node id.  Returns the updated streams,
the log of (source, item) polls that produced an item, and the delivery log. -/
def tickFrom {α : Type} [DecidableEq α] (g : PGraph α) :
    List Nat → List (List α) → List (List α) × List (Nat × α) × List (Nat × α)
  | [], st => (st, [], [])
  | nid :: rest, st =>
    match g.nodes[nid]? with
    | some NodeB.src =>
      match st[nid]? with
      | some (x :: xs) =>
          let here := (consumersOf g nid).flatMap
            (fun c => propagate g g.nodes.length c x)
          let (st', prod, del) := tickFrom g rest (st.set nid xs)
          (st', (nid, x) :: prod, here ++ del)
      | _ => tickFrom g rest st
    | _ => tickFrom g rest st

/-- One full tick (§4.3): poll every source in creation order, each produced
item fully propagated before the next source is polled. -/
def tick {α : Type} [DecidableEq α] (g : PGraph α) (st : List (List α)) :
    List (List α) × List (Nat × α) × List (Nat × α) :=
  tickFrom g (List.range g.nodes.length) st

/-- Modelled from the spec: `n` ticks of the engine, concatenating the
produced and delivered logs in order. -/
def runEngine {α : Type} [DecidableEq α] (g : PGraph α) :
    Nat → List (List α) → List (List α) × List (Nat × α) × List (Nat × α)
  | 0, st => (st, [], [])
  | Nat.succ n, st =>
      let (st₁, p₁, d₁) := tick g st
      let (st₂, p₂, d₂) := runEngine g n st₁
      (st₂, p₁ ++ p₂, d₁ ++ d₂)

/-- The (source, item) poll log of a run. -/
def producedLog {α : Type} [DecidableEq α] (g : PGraph α) (n : Nat)
    (st : List (List α)) : List (Nat × α) :=
  (runEngine g n st).2.1

/-- The (sink, item) delivery log of a run. -/
def deliveredLog {α : Type} [DecidableEq α] (g : PGraph α) (n : Nat)
    (st : List (List α)) : List (Nat × α) :=
  (runEngine g n st).2.2

/-- The two-node pipeline of the spec's first testable property (§8) and of
`src/unnamed/part_000` (`src >> sink`): node 0 a source wired directly to
node 1, a sink, with no intermediate filter. -/
def directGraph : PGraph Char := ⟨[NodeB.src, NodeB.snk], [(0, 1)]⟩

/-- The three-node pipeline of the spec's filter property (§8): source 0 →
filter 1 (match set `S`) → sink 2, as in `src | filter["abcd"] | sink`
(`src/unnamed/part_002`). -/
def filterGraph (S : List Char) : PGraph Char :=
  ⟨[NodeB.src, NodeB.filt S, NodeB.snk], [(0, 1), (1, 2)]⟩

/-- Presenting one item to the filter node of `filterGraph S`: the
deliveries that propagating it from node 1 produces. -/
def presentToFilter (S : List Char) (x : Char) : List (Nat × Char) :=
  propagate (filterGraph S) (filterGraph S).nodes.length 1 x

end SpecModel

namespace SpecModel

/-- Modelled from the spec (§4.3): total wall-clock time consumed by the
first `n` ticks, given an arbitrary per-tick duration assignment. -/
def elapsedMs (tickDur : Nat → Nat) (n : Nat) : Nat :=
  ((List.range n).map tickDur).sum

/-- Modelled from the spec (§4.3 `run`, §4.4): the loop driver's exit test at
tick boundary `n` (i.e. after `n` completed ticks): exit when the iteration
limit is reached, or the duration limit has elapsed, or a stop request has
been observed; `none` is the documented "unbounded" sentinel disabling a
limit (the examples pass `-1` / `INFINITE` for it).  The test runs only at
tick boundaries (§5: cancellation is cooperative at tick boundaries). -/
def exitAtBoundary (iterLimit durLimit : Option Nat) (tickDur : Nat → Nat)
    (stopReq : Nat → Bool) (n : Nat) : Bool :=
  (match iterLimit with
   | some N => decide (N ≤ n)
   | none => false)
  || (match durLimit with
      | some D => decide (D ≤ elapsedMs tickDur n)
      | none => false)
  || stopReq n

/-- With a finite iteration limit the loop is guaranteed to exit. -/
theorem exit_exists_of_iterLimit (N : Nat) (durLimit : Option Nat)
    (tickDur : Nat → Nat) (stopReq : Nat → Bool) :
    ∃ n, exitAtBoundary (some N) durLimit tickDur stopReq n = true :=
  ⟨N, by simp [exitAtBoundary]⟩

/-- Once a stop request is observable at some boundary, the loop exits. -/
theorem exit_exists_of_stopReq (iterLimit durLimit : Option Nat)
    (tickDur : Nat → Nat) (stopReq : Nat → Bool) (k : Nat)
    (hk : stopReq k = true) :
    ∃ n, exitAtBoundary iterLimit durLimit tickDur stopReq n = true :=
  ⟨k, by simp [exitAtBoundary, hk]⟩

/-- Modelled from the spec: the number of ticks a `run` performs — the first
tick boundary at which the exit test fires (`run` returns there). -/
def ticksOfRun (iterLimit durLimit : Option Nat) (tickDur : Nat → Nat)
    (stopReq : Nat → Bool)
    (h : ∃ n, exitAtBoundary iterLimit durLimit tickDur stopReq n = true) : Nat :=
  Nat.find h

/-- Modelled from the spec (§4.3/§4.4): the run-control flag `stop()` sets.
`stop` is a total function: it cannot fail. -/
structure EngineCtl where
  stopRequested : Bool
deriving DecidableEq, Repr

/-- Modelled from the spec (§4.3): `stop()` — "a thread-safe, idempotent
request that the next tick boundary should be the last"; it only raises the
stop flag. -/
def stop (e : EngineCtl) : EngineCtl := { e with stopRequested := true }

/-- Modelled from the spec (§3): payload types a link can carry; the graph
is checked for producer/consumer type compatibility per link. -/
inductive Ty where
  | str
  | chr
  | bytes
  | frame
  | packet
deriving DecidableEq, Repr

/-- Modelled from the spec (§3/§4.2): a node's input and output payload
types; `none` marks a missing side (a source has no input, a sink no
output). -/
structure TNode where
  inTy : Option Ty
  outTy : Option Ty
deriving DecidableEq, Repr

/-- Modelled from the spec (§7): construction-error outcomes of a wiring
call. -/
inductive WireError where
  | typeMismatch
  | invalidEndpoint
deriving DecidableEq, Repr

/-- The typed graph the wiring layer builds. -/
structure TGraph where
  nodes : List TNode
  links : List (Nat × Nat)
deriving DecidableEq, Repr

/-- Modelled from the spec (§4.2 `connect`, §7): default-tag wiring.  It
fails synchronously — before any run — when the producer's output type and
the consumer's input type differ (`typeMismatch`), or when an endpoint does
not exist or cannot stand on that side of a link (e.g. a source as a
destination); on failure the graph is left unchanged (the caller may catch
and retry wiring). -/
def connect (g : TGraph) (a b : Nat) : Except WireError TGraph :=
  match g.nodes[a]?, g.nodes[b]? with
  | some na, some nb =>
    match na.outTy, nb.inTy with
    | some t, some u =>
        if t = u then Except.ok { g with links := g.links ++ [(a, b)] }
        else Except.error WireError.typeMismatch
    | _, _ => Except.error WireError.invalidEndpoint
  | _, _ => Except.error WireError.invalidEndpoint

/-- A link is compatible when its producer's output type equals its
consumer's input type. -/
def linkCompatible (g : TGraph) (l : Nat × Nat) : Bool :=
  match g.nodes[l.1]?, g.nodes[l.2]? with
  | some na, some nb =>
    match na.outTy, nb.inTy with
    | some t, some u => t == u
    | _, _ => false
  | _, _ => false

/-- Every link of the graph is type-compatible. -/
def wellTyped (g : TGraph) : Bool := g.links.all (linkCompatible g)

/-- A caller issuing a sequence of wiring requests, keeping each successful
connect and discarding each failed one (§7: a construction error is fatal to
that wiring call, non-fatal to the process). -/
def connectAll (g : TGraph) : List (Nat × Nat) → TGraph
  | [] => g
  | (a, b) :: reqs =>
      match connect g a b with
      | Except.ok g' => connectAll g' reqs
      | Except.error _ => connectAll g reqs

/-- The links on which a run's delivery would hit a producer/consumer type
mismatch — the type errors that could surface at runtime. -/
def runtimeTypeErrors (g : TGraph) : List (Nat × Nat) :=
  g.links.filter (fun l => !(linkCompatible g l))

/-- Modelled from the spec (§4.4): the scheduler-loop states. -/
inductive Phase where
  | idle
  | running
  | stopping
  | stopped
deriving DecidableEq, Repr

/-- An engine instance's control state: its lifecycle phase and the graph it
owns. -/
structure LifeState where
  phase : Phase
  graph : TGraph
deriving DecidableEq, Repr

/-- The operations visible at the engine's lifecycle boundary: composition
(node/link registration), the start of `run`, the observation of a stop
request, and `run` returning. -/
inductive LifeOp where
  | addNode (t : TNode)
  | addLink (a b : Nat)
  | startRun
  | observeStop
  | finishRun

/-- Modelled from the spec (§4.4 and the §3 invariant): composition is only
effective in `Idle` ("all composition must happen before the first run";
`Idle → Running` is the point at which the graph becomes immutable);
`Idle → Running → Stopping → Stopped`, with `Stopped` terminal. -/
def lifeStep (s : LifeState) : LifeOp → LifeState
  | LifeOp.addNode t =>
      if s.phase = Phase.idle
      then { s with graph := { s.graph with nodes := s.graph.nodes ++ [t] } }
      else s
  | LifeOp.addLink a b =>
      if s.phase = Phase.idle
      then match connect s.graph a b with
           | Except.ok g' => { s with graph := g' }
           | Except.error _ => s
      else s
  | LifeOp.startRun =>
      if s.phase = Phase.idle then { s with phase := Phase.running } else s
  | LifeOp.observeStop =>
      if s.phase = Phase.running then { s with phase := Phase.stopping } else s
  | LifeOp.finishRun =>
      if s.phase = Phase.running ∨ s.phase = Phase.stopping
      then { s with phase := Phase.stopped } else s

/-- An engine instance's whole observable lifecycle: a sequence of boundary
operations applied in order. -/
def lifeRun (s : LifeState) (ops : List LifeOp) : LifeState :=
  ops.foldl lifeStep s

end SpecModel
namespace SpecModel

theorem direct_tick_cons (x : Char) (xs s : List Char) :
    tick directGraph [x :: xs, s] = ([xs, s], [(0, x)], [(1, x)]) := rfl

theorem direct_tick_nil (s : List Char) :
    tick directGraph [[], s] = ([[], s], [], []) := rfl

theorem direct_run (n : Nat) (items s : List Char) :
    runEngine directGraph n [items, s]
      = ([items.drop n, s],
         (items.take n).map (fun y => (0, y)),
         (items.take n).map (fun y => (1, y))) := by
  induction n generalizing items with
  | zero => simp [runEngine]
  | succ n ih =>
    cases items with
    | nil =>
      simp [runEngine, direct_tick_nil, ih]
    | cons x xs =>
      simp [runEngine, direct_tick_cons, ih]

/-- C1: a Sink wired directly to a Source (with no intermediate filter)
receives, during one run, exactly the sequence of items the Source produced,
in the same order, exactly once: in `directGraph` the delivery log is the
poll log re-addressed to the sink, and the produced sequence is exactly the
prefix of the source's input stream that the run's ticks polled. -/
theorem source_to_sink_exact_sequence (items : List Char) (n : Nat) :
    deliveredLog directGraph n [items, []]
      = (producedLog directGraph n [items, []]).map (fun p => (1, p.2))
    ∧ (producedLog directGraph n [items, []]).map (·.2) = items.take n := by
  refine ⟨?_, ?_⟩
  · simp [deliveredLog, producedLog, direct_run]
    rfl
  · simp [producedLog, direct_run]

end SpecModel
namespace SpecModel

theorem present_to_filter_eq (S : List Char) (x : Char) :
    presentToFilter S x = if x ∈ S then [(2, x)] else [] := by
  by_cases h : x ∈ S <;>
    simp [presentToFilter, filterGraph, propagate, consumersOf, h]

theorem filter_tick_cons (S : List Char) (x : Char) (xs f s : List Char) :
    tick (filterGraph S) [x :: xs, f, s]
      = ([xs, f, s], [(0, x)], if x ∈ S then [(2, x)] else []) := by
  by_cases h : x ∈ S <;>
    simp [tick, tickFrom, filterGraph, consumersOf, propagate, h, List.range_succ]

theorem filter_tick_nil (S : List Char) (f s : List Char) :
    tick (filterGraph S) [[], f, s] = ([[], f, s], [], []) := rfl

theorem filter_run (S : List Char) (n : Nat) (items f s : List Char) :
    runEngine (filterGraph S) n [items, f, s]
      = ([items.drop n, f, s],
         (items.take n).map (fun y => (0, y)),
         ((items.take n).filter (· ∈ S)).map (fun y => (2, y))) := by
  induction n generalizing items with
  | zero => simp [runEngine]
  | succ n ih =>
    cases items with
    | nil =>
      simp [runEngine, filter_tick_nil, ih]
    | cons x xs =>
      by_cases h : x ∈ S <;>
        simp [runEngine, filter_tick_cons, ih, h, List.filter_cons]

end SpecModel

namespace SpecModel

/-- C3: a Filter configured with match set `S` forwards an item presented to
it to its default-tagged consumer exactly when the item is a member of `S`
(forwarded unchanged, to the one wired default consumer); an item not in `S`
reaches no default-tagged consumer.  The run-level conjunct: over a whole
run, the sink behind the filter receives exactly the polled items that lie
in `S`, in order. -/
theorem filter_forwards_iff_member (S : List Char) (x : Char) :
    presentToFilter S x = (if x ∈ S then [(2, x)] else [])
    ∧ (presentToFilter S x ≠ [] ↔ x ∈ S)
    ∧ ∀ (items : List Char) (n : Nat),
        deliveredLog (filterGraph S) n [items, [], []]
          = ((items.take n).filter (· ∈ S)).map (fun y => (2, y)) := by
  refine ⟨present_to_filter_eq S x, ?_, ?_⟩
  · by_cases h : x ∈ S <;> simp [present_to_filter_eq, h]
  · intro items n
    simp [deliveredLog, filter_run]

end SpecModel
namespace SpecModel

/-- C2: `run(N, unbounded)` with a finite iteration limit `N`, no stop
request, and non-blocking sources performs exactly `N` ticks and then
returns, whatever wall-clock time (`tickDur`) each tick consumed: the first
boundary at which the exit test fires is boundary `N`. -/
theorem run_finite_limit_exact_ticks (N : Nat) (tickDur : Nat → Nat) :
    ticksOfRun (some N) none tickDur (fun _ => false)
      (exit_exists_of_iterLimit N none tickDur (fun _ => false)) = N := by
  unfold ticksOfRun
  rw [Nat.find_eq_iff]
  constructor
  · simp [exitAtBoundary]
  · intro m hm
    simp [exitAtBoundary]
    omega

/-- C4: `stop()` is idempotent and total (it only sets the stop flag, so a
second call — from any caller, at any time — changes nothing and cannot
fail), and once a stop request is observable at the boundary after tick `k`
(it arrived while tick `k` was in flight), the run performs at most `k + 1`
ticks: the in-flight tick completes and `run` returns at its boundary. -/
theorem stop_idempotent_safe_prompt (e : EngineCtl)
    (iterLimit durLimit : Option Nat) (tickDur : Nat → Nat)
    (stopReq : Nat → Bool) (k : Nat) (hk : stopReq (k + 1) = true) :
    stop (stop e) = stop e
    ∧ (stop e).stopRequested = true
    ∧ ticksOfRun iterLimit durLimit tickDur stopReq
        (exit_exists_of_stopReq iterLimit durLimit tickDur stopReq (k + 1) hk)
        ≤ k + 1 := by
  refine ⟨rfl, rfl, ?_⟩
  exact Nat.find_le (by simp [exitAtBoundary, hk])

/-- Witness for `stop_idempotent_safe_prompt`: a stop request observable at
the first tick boundary bounds the run at one tick. -/
theorem stop_idempotent_safe_prompt_witness :
    stop (stop ⟨false⟩) = stop ⟨false⟩
    ∧ (stop ⟨false⟩).stopRequested = true
    ∧ ticksOfRun none none (fun _ => 1) (fun _ => true)
        (exit_exists_of_stopReq none none (fun _ => 1) (fun _ => true) (0 + 1) rfl)
        ≤ 0 + 1 :=
  stop_idempotent_safe_prompt ⟨false⟩ none none (fun _ => 1) (fun _ => true) 0 rfl

end SpecModel
namespace SpecModel

theorem connect_ok (g g' : TGraph) (a b : Nat)
    (h : connect g a b = Except.ok g') :
    linkCompatible g (a, b) = true
    ∧ g'.nodes = g.nodes ∧ g'.links = g.links ++ [(a, b)] := by
  unfold connect at h
  split at h
  next na nb hga hgb =>
    split at h
    next t u hna hnb =>
      split at h
      next htu =>
        injection h with h
        subst h
        refine ⟨?_, rfl, rfl⟩
        simp [linkCompatible, hga, hgb, hna, hnb, htu]
      next _ => cases h
    next _ _ => cases h
  next _ _ => cases h

theorem linkCompatible_congr (g g' : TGraph) (hn : g'.nodes = g.nodes)
    (l : Nat × Nat) : linkCompatible g' l = linkCompatible g l := by
  unfold linkCompatible
  rw [hn]

theorem wellTyped_connect (g g' : TGraph) (a b : Nat)
    (h : connect g a b = Except.ok g') (hw : wellTyped g = true) :
    wellTyped g' = true := by
  obtain ⟨hc, hn, hl⟩ := connect_ok g g' a b h
  have hfun : linkCompatible g' = linkCompatible g :=
    funext (linkCompatible_congr g g' hn)
  unfold wellTyped
  rw [hl, hfun, List.all_append]
  unfold wellTyped at hw
  simp [hw, hc]

theorem wellTyped_connectAll (g : TGraph) (reqs : List (Nat × Nat))
    (hw : wellTyped g = true) :
    wellTyped (connectAll g reqs) = true := by
  induction reqs generalizing g with
  | nil => exact hw
  | cons r reqs ih =>
    obtain ⟨ra, rb⟩ := r
    unfold connectAll
    cases hc : connect g ra rb with
    | ok g' => exact ih g' (wellTyped_connect g g' ra rb hc hw)
    | error e => exact ih g hw

theorem runtimeTypeErrors_eq_nil (g : TGraph) (hw : wellTyped g = true) :
    runtimeTypeErrors g = [] := by
  unfold runtimeTypeErrors
  unfold wellTyped at hw
  rw [List.all_eq_true] at hw
  rw [List.filter_eq_nil_iff]
  intro l hl
  simp [hw l hl]

/-- C5: wiring a producer whose output payload type differs from its
consumer's input type fails at graph-construction time — `connect` returns
the `typeMismatch` construction error and yields no graph, so no run can
begin on the mismatched link — while every graph actually built through the
wiring layer (each successful `connect` kept, each failed one discarded)
carries no link on which a run could surface a type error. -/
theorem type_mismatch_is_construction_error (g : TGraph) (a b : Nat)
    (na nb : TNode) (t u : Ty)
    (ha : g.nodes[a]? = some na) (hb : g.nodes[b]? = some nb)
    (hna : na.outTy = some t) (hnb : nb.inTy = some u) (hne : t ≠ u)
    (nodes : List TNode) (reqs : List (Nat × Nat)) :
    connect g a b = Except.error WireError.typeMismatch
    ∧ runtimeTypeErrors (connectAll ⟨nodes, []⟩ reqs) = [] := by
  constructor
  · unfold connect
    simp only [ha, hb, hna, hnb, if_neg hne]
  · exact runtimeTypeErrors_eq_nil _ (wellTyped_connectAll ⟨nodes, []⟩ reqs rfl)

/-- Witness for `type_mismatch_is_construction_error`: a string-producing
source wired to a char-consuming sink is rejected at wiring time, and the
graph built from the same wiring requests has no runtime-checkable
mismatch. -/
theorem type_mismatch_is_construction_error_witness :
    connect ⟨[⟨none, some Ty.str⟩, ⟨some Ty.chr, none⟩], []⟩ 0 1
      = Except.error WireError.typeMismatch
    ∧ runtimeTypeErrors
        (connectAll ⟨[⟨none, some Ty.str⟩, ⟨some Ty.chr, none⟩], []⟩
          [(0, 1), (1, 0)]) = [] :=
  type_mismatch_is_construction_error
    ⟨[⟨none, some Ty.str⟩, ⟨some Ty.chr, none⟩], []⟩ 0 1
    ⟨none, some Ty.str⟩ ⟨some Ty.chr, none⟩ Ty.str Ty.chr rfl rfl rfl rfl
    (by decide) [⟨none, some Ty.str⟩, ⟨some Ty.chr, none⟩] [(0, 1), (1, 0)]

end SpecModel
namespace SpecModel

theorem lifeStep_graph_const (s : LifeState) (op : LifeOp)
    (h : s.phase ≠ Phase.idle) : (lifeStep s op).graph = s.graph := by
  cases op <;> simp [lifeStep, h] <;> split <;> rfl

theorem lifeStep_phase_ne_idle (s : LifeState) (op : LifeOp)
    (h : s.phase ≠ Phase.idle) : (lifeStep s op).phase ≠ Phase.idle := by
  cases op <;> simp [lifeStep, h] <;> split <;> simp [h]

theorem lifeStep_stopped (s : LifeState) (op : LifeOp)
    (h : s.phase = Phase.stopped) : (lifeStep s op).phase = Phase.stopped := by
  cases op <;> simp [lifeStep, h]

/-- C6: once the engine's run loop has started (its phase has left `Idle` —
the spec's `Idle → Running` transition is the point at which the graph
becomes immutable), no sequence of lifecycle operations mutates the graph:
node and link registration are only effective in `Idle`, and the engine
never returns to `Idle`. -/
theorem graph_immutable_once_started (s : LifeState) (ops : List LifeOp)
    (h : s.phase ≠ Phase.idle) :
    (lifeRun s ops).graph = s.graph ∧ (lifeRun s ops).phase ≠ Phase.idle := by
  induction ops generalizing s with
  | nil => exact ⟨rfl, h⟩
  | cons op ops ih =>
    unfold lifeRun at *
    simp only [List.foldl_cons]
    obtain ⟨hg, hp⟩ := ih (lifeStep s op) (lifeStep_phase_ne_idle s op h)
    exact ⟨hg.trans (lifeStep_graph_const s op h), hp⟩

/-- Witness for `graph_immutable_once_started`: a running engine ignores a
node registration and a second run start. -/
theorem graph_immutable_once_started_witness :
    (lifeRun ⟨Phase.running, ⟨[], []⟩⟩
        [LifeOp.addNode ⟨none, none⟩, LifeOp.startRun]).graph = ⟨[], []⟩
    ∧ (lifeRun ⟨Phase.running, ⟨[], []⟩⟩
        [LifeOp.addNode ⟨none, none⟩, LifeOp.startRun]).phase ≠ Phase.idle :=
  graph_immutable_once_started ⟨Phase.running, ⟨[], []⟩⟩
    [LifeOp.addNode ⟨none, none⟩, LifeOp.startRun] (by decide)

/-- C7: `Stopped` is terminal: whatever lifecycle operations are applied to
an engine whose run has finished, its phase stays `Stopped` and in
particular never returns to `Running` — a finished engine instance cannot
run again (a fresh instance must be created). -/
theorem stopped_never_runs_again (s : LifeState) (ops : List LifeOp)
    (h : s.phase = Phase.stopped) :
    (lifeRun s ops).phase = Phase.stopped
    ∧ (lifeRun s ops).phase ≠ Phase.running := by
  induction ops generalizing s with
  | nil => exact ⟨h, by rw [lifeRun, List.foldl_nil, h]; decide⟩
  | cons op ops ih =>
    unfold lifeRun at *
    simp only [List.foldl_cons]
    exact ih (lifeStep s op) (lifeStep_stopped s op h)

/-- Witness for `stopped_never_runs_again`: starting a run on a stopped
engine leaves it stopped. -/
theorem stopped_never_runs_again_witness :
    (lifeRun ⟨Phase.stopped, ⟨[], []⟩⟩ [LifeOp.startRun]).phase = Phase.stopped
    ∧ (lifeRun ⟨Phase.stopped, ⟨[], []⟩⟩ [LifeOp.startRun]).phase
        ≠ Phase.running :=
  stopped_never_runs_again ⟨Phase.stopped, ⟨[], []⟩⟩ [LifeOp.startRun] rfl

end SpecModel
namespace Part001

/-- An effect is a pipeline action when it polls a source, delivers an item,
or invokes a registered handler (a diagnostic log line is not). -/
def Effect.isPipelineAction : Effect → Bool
  | Effect.polled _ => true
  | Effect.delivered _ => true
  | Effect.invoked _ _ => true
  | Effect.logged _ => false

theorem loopIter_noop (s : ProgState) : Application.loopIter s = (s, []) := by
  unfold Application.loopIter engine.run
  split <;> rfl

/-- C8: for every pair of arguments, the mock `engine::run` of
`src/unnamed/part_001` returns at once with the whole program state — the
sources' pending input, the sinks' records, the handler-invocation log and
the application's `should_quit_` flag — unchanged and no observable action
performed; the `key_input.cpp` variant likewise changes no program state and
performs no pipeline action (it only prints a diagnostic line); hence any
number of `Application::main_loop` iterations also leave the state unchanged
and perform nothing. -/
theorem engine_run_is_noop (lc dm : Int) (s : ProgState) (k : Nat) :
    engine.run lc dm s = (s, [])
    ∧ (engine.runKeyInput lc dm s).1 = s
    ∧ (engine.runKeyInput lc dm s).2.filter Effect.isPipelineAction = []
    ∧ Application.loopIters k s = (s, []) := by
  refine ⟨rfl, rfl, rfl, ?_⟩
  induction k with
  | zero => rfl
  | succ k ih =>
    unfold Application.loopIters
    rw [loopIter_noop]
    simp [ih]

/-- C9: the mock `engine::create<T>` of `src/unnamed/part_001` always
succeeds: it hands the caller a non-null, freshly default-constructed `T`,
and the engine — a class with no data members, hence no node registry — is
left exactly as it was; the static `engine::create` likewise always yields
a fresh engine. -/
theorem create_returns_fresh_default (T : Type) [Inhabited T]
    (e : engine) :
    engine.create T e = (e, some default)
    ∧ (engine.create T e).2 ≠ none
    ∧ engine.createEngine = some ⟨⟩ := by
  refine ⟨rfl, ?_, rfl⟩
  simp [engine.create]

/-- C10: `command_map::operator[]` followed by `command_map::set` returns
the very same `command_map` unchanged (the class has no data members, so the
handler cannot be stored) and performs no observable action; more generally
any sequence of `command_map` operations leaves the map unchanged and emits
an empty effect trace — in particular no handler registered through `set` is
ever invoked — and the mock `engine::run`, the only subsequent operation the
examples perform, emits no effect either. -/
theorem command_map_set_discards_handler (m : command_map) (key : String)
    (h : Handler) (ops : List CmdOp) :
    ((m.opIndex key).1.set h).1 = m
    ∧ (m.opIndex key).2 = []
    ∧ ((m.opIndex key).1.set h).2 = []
    ∧ command_map.applyOps m ops = (m, [])
    ∧ (∀ (lc dm : Int) (s : ProgState), (engine.run lc dm s).2 = []) := by
  refine ⟨rfl, rfl, rfl, ?_, fun _ _ _ => rfl⟩
  induction ops with
  | nil => rfl
  | cons op ops ih =>
    cases op <;> (unfold command_map.applyOps; simp [command_map.opIndex, command_map.set, ih])

end Part001
